import Mathlib

/-!
Shallow embedding of the virtual machine in `src/evm.c` (a single-file C
program).  All C `unsigned` values are modelled as `Nat` with arithmetic
taken modulo `2 ^ 32` exactly where the C operations can wrap.  The byte
pool `pmem` (C type `unsigned char *`) is a `List Nat` whose cells are
kept below 256 by the store operations, mirroring the implicit masking of
a store through an `unsigned char` pointer.  Fallible C operations —
out-of-bounds array accesses (undefined behaviour in C) and failed
`assert` calls (which abort the process) — are modelled with
`Except Fault`.
-/

set_option maxRecDepth 8000

namespace EVM

/-- Modulus of the C `unsigned` type (32-bit). -/
def U32 : Nat := 4294967296

/-- The processor state, from `struct PU` (evm.c lines 14-22): program
counter `pc`, flags register `fr`, eight general registers `r`
(C type `unsigned r[8]`; length 8 is stated as a hypothesis where a
theorem needs it), the RAM pool `pmem` with its size `pmemsize`.
The function-pointer table `op[32]` is modelled separately by
`op_handler` since it is identical for every core. -/
structure PU where
  pc : Nat
  fr : Nat
  r : List Nat
  pmem : List Nat
  pmemsize : Nat
deriving DecidableEq, Repr

/-- The outside world seen through `getinp` and `putout`: `inp` is the
sequence of unsigned values that successive C input calls (`getchar`,
`scanf`) return, `out` records each emitted (channel, value) pair. -/
structure World where
  inp : List Nat
  out : List (Nat × Nat)
deriving DecidableEq, Repr

/-- Fatal conditions of the C program: a failed `assert` (process
abort), an out-of-bounds array access (undefined behaviour in C), and an
out-of-range index into the 32-entry handler table `op[32]` (also
undefined behaviour, see `resume_step`). -/
inductive Fault
  | assertFail
  | oobAccess
  | badDispatch
deriving DecidableEq, Repr

/-- Macro `isnum(e)`: the low tag bit of an operand byte (evm.c line 40). -/
def isnum (e : Nat) : Bool := e % 2 = 1

/-- Macro `tonum(e)`: value of a tagged literal (evm.c line 39). -/
def tonum (e : Nat) : Nat := e / 2

/-- Macro `num_(n)`: encode a number as a tagged literal, in 32-bit
unsigned arithmetic (evm.c line 36). -/
def num_ (n : Nat) : Nat := (n * 2 + 1) % U32

/-- Macro `addr_(p)`: encode an index as a (tag bit clear) address, in
32-bit unsigned arithmetic (evm.c line 37). -/
def addr_ (p : Nat) : Nat := (p * 2) % U32

/-- Flag bit `FL_ZERO` (evm.c line 27). -/
def FL_ZERO : Nat := 1

/-- Flag bit `FL_CARRY` (evm.c line 28). -/
def FL_CARRY : Nat := 2

/-- Macro `isflag(pu, f)` as a Bool: whether any bit of `f` is set in the
flags register (evm.c line 30). -/
def isflag (fr f : Nat) : Bool := fr &&& f != 0

/-- Macro `setflag(pu, e, f)` (evm.c line 31): set or clear the flag bits
`f`.  The C clear path is `fr &= ~f` with a 32-bit complement, hence the
mask `4294967295 ^^^ f`. -/
def setflag (fr : Nat) (e : Bool) (f : Nat) : Nat :=
  if e then fr ||| f else fr &&& (4294967295 ^^^ f)

/-- Macro `setzf` (evm.c line 33). -/
def setzf (fr : Nat) (e : Bool) : Nat := setflag fr e FL_ZERO

/-- Macro `setcf` (evm.c line 34). -/
def setcf (fr : Nat) (e : Bool) : Nat := setflag fr e FL_CARRY

/-- Function `obj_read` (evm.c lines 56-62): a tagged literal resolves to
its value; otherwise the byte is halved into an index, indices below 16
read the register array (out of bounds for indices 8-15, since `r` has 8
slots) and the rest read the RAM pool. -/
def obj_read (s : PU) (expr : Nat) : Except Fault Nat :=
  if isnum expr then .ok (tonum expr)
  else
    let i := expr / 2
    if i < 16 then
      match s.r[i]? with
      | some v => .ok v
      | none => .error .oobAccess
    else
      match s.pmem[i]? with
      | some v => .ok v
      | none => .error .oobAccess

/-- Function `obj_write` (evm.c lines 64-72): `assert(!isnum(addr))`,
then the halved index selects the register array (when below 16) or the
RAM pool; the value stored is `obj_read` of the value operand — stores
into RAM go through an `unsigned char` and are masked to a byte, stores
into a register are not masked. -/
def obj_write (s : PU) (addr expr : Nat) : Except Fault PU :=
  if isnum addr then .error .assertFail
  else
    let i := addr / 2
    match obj_read s expr with
    | .error e => .error e
    | .ok v =>
      if i < 16 then
        if i < s.r.length then .ok { s with r := s.r.set i v }
        else .error .oobAccess
      else
        if i < s.pmem.length then .ok { s with pmem := s.pmem.set i (v % 256) }
        else .error .oobAccess

/-- Function `getinp` (evm.c lines 78-90).  Channel 0 (`IO_CHR`) returns
the next input value, or 4294967295 at end of input (C `getchar` returns
-1, converted to `unsigned`); channel 1 (`IO_NUM`) returns the next
input value, or 0 at end of input (`scanf` leaves `n = 0`); any other
channel returns 0 without reading. -/
def getinp (w : World) (ch : Nat) : Nat × World :=
  if ch = 0 then
    match w.inp with
    | v :: rest => (v, { w with inp := rest })
    | [] => (4294967295, w)
  else if ch = 1 then
    match w.inp with
    | v :: rest => (v, { w with inp := rest })
    | [] => (0, w)
  else (0, w)

/-- Function `putout` (evm.c lines 92-99).  Channel 0 emits a character
(`putchar` masks its argument to a byte), channel 1 emits the number,
any other channel emits nothing. -/
def putout (w : World) (ch n : Nat) : World :=
  if ch = 0 then { w with out := w.out ++ [(0, n % 256)] }
  else if ch = 1 then { w with out := w.out ++ [(1, n)] }
  else w

/-- Fetch one operand byte at `pc` and advance `pc`, as the
`pcore->pmem[pcore->pc++]` idiom of every handler; a fetch outside the
pool is an out-of-bounds access. -/
def fetchOperand (s : PU) : Except Fault (Nat × PU) :=
  match s.pmem[s.pc]? with
  | some b => .ok (b, { s with pc := (s.pc + 1) % U32 })
  | none => .error .oobAccess

/-- Handler `op_SUS` (evm.c lines 101-103): no computation. -/
def op_SUS (s : PU) (w : World) : Except Fault (PU × World) :=
  .ok (s, w)

/-- Handler `op_MOV` (evm.c lines 105-112). -/
def op_MOV (s : PU) (w : World) : Except Fault (PU × World) := do
  let (expr, s) ← fetchOperand s
  let (addr, s) ← fetchOperand s
  let s ← obj_write s addr expr
  return (s, w)

/-- Handler `op_ATP` (evm.c lines 114-124): `assert(!isnum(ixreg))`,
resolve `ixreg` to `a`, then write the value operand through address
`addr_(a)`. -/
def op_ATP (s : PU) (w : World) : Except Fault (PU × World) := do
  let (expr, s) ← fetchOperand s
  let (ixreg, s) ← fetchOperand s
  if isnum ixreg then .error .assertFail
  else do
    let a ← obj_read s ixreg
    let s ← obj_write s (addr_ a) expr
    return (s, w)

/-- Handler `op_AT` (evm.c lines 126-137): asserts both operands are
references, resolves `ixreg` to `a`, then calls
`obj_write(pcore, addr, addr_(a))` — note that `obj_write` resolves its
value operand with `obj_read`, and `addr_(a)` carries a clear tag bit,
so the value actually stored is the content of cell `a`, not the
encoding `addr_(a)` itself. -/
def op_AT (s : PU) (w : World) : Except Fault (PU × World) := do
  let (ixreg, s) ← fetchOperand s
  let (addr, s) ← fetchOperand s
  if isnum ixreg then .error .assertFail
  else if isnum addr then .error .assertFail
  else do
    let a ← obj_read s ixreg
    let s ← obj_write s addr (addr_ a)
    return (s, w)

/-- Handler `op_ADD` (evm.c lines 139-151): 32-bit unsigned sum of the
resolved destination and source, carry flag from 32-bit wraparound
(`new < old`), zero flag from the unmasked 32-bit result, write-back of
`num_(new)`. -/
def op_ADD (s : PU) (w : World) : Except Fault (PU × World) := do
  let (expr, s) ← fetchOperand s
  let (addr, s) ← fetchOperand s
  let old ← obj_read s addr
  let d ← obj_read s expr
  let new := (old + d) % U32
  let s := { s with fr := setzf (setcf s.fr (decide (new < old))) (new == 0) }
  let s ← obj_write s addr (num_ new)
  return (s, w)

/-- Handler `op_SUB` (evm.c lines 153-165): 32-bit unsigned difference,
carry flag from `new > old`, zero flag from the unmasked result,
write-back of `num_(new)`. -/
def op_SUB (s : PU) (w : World) : Except Fault (PU × World) := do
  let (expr, s) ← fetchOperand s
  let (addr, s) ← fetchOperand s
  let old ← obj_read s addr
  let d ← obj_read s expr
  let new := (old + (U32 - d % U32)) % U32
  let s := { s with fr := setzf (setcf s.fr (decide (new > old))) (new == 0) }
  let s ← obj_write s addr (num_ new)
  return (s, w)

/-- Handler `op_JIF` (evm.c lines 167-175): when the named flag bits are
all clear, load `pc` from the resolved second operand. -/
def op_JIF (s : PU) (w : World) : Except Fault (PU × World) := do
  let (flag, s) ← fetchOperand s
  let (addr, s) ← fetchOperand s
  if isflag s.fr flag then return (s, w)
  else do
    let t ← obj_read s addr
    return ({ s with pc := t }, w)

/-- Handler `op_JMR` (evm.c lines 177-183): load `pc` from the resolved
operand. -/
def op_JMR (s : PU) (w : World) : Except Fault (PU × World) := do
  let (addr, s) ← fetchOperand s
  let t ← obj_read s addr
  return ({ s with pc := t }, w)

/-- Handler `op_MPC` (evm.c lines 185-191): store the already-advanced
`pc`, encoded as a literal, into the destination. -/
def op_MPC (s : PU) (w : World) : Except Fault (PU × World) := do
  let (addr, s) ← fetchOperand s
  let s ← obj_write s addr (num_ s.pc)
  return (s, w)

/-- Handler `op_IN` (evm.c lines 193-201): read a value from the channel
named by the raw first operand byte, store it encoded as a literal. -/
def op_IN (s : PU) (w : World) : Except Fault (PU × World) := do
  let (ch, s) ← fetchOperand s
  let (addr, s) ← fetchOperand s
  let (v, w) := getinp w ch
  let s ← obj_write s addr (num_ v)
  return (s, w)

/-- Handler `op_OUT` (evm.c lines 203-210): emit the resolved second
operand on the channel named by the raw first operand byte. -/
def op_OUT (s : PU) (w : World) : Except Fault (PU × World) := do
  let (ch, s) ← fetchOperand s
  let (addr, s) ← fetchOperand s
  let v ← obj_read s addr
  return (s, putout w ch v)

/-- The handler table of `Core1` (evm.c lines 212-224): entries 0-10 are
the eleven opcode handlers, entries 11-31 are the null pointers a
designated initializer leaves behind.  Callers must guard the index
below 32 (the array bound) themselves, as `resume_step` does. -/
def op_handler (i : Nat) : Option (PU → World → Except Fault (PU × World)) :=
  if i = 0 then some op_SUS
  else if i = 1 then some op_MOV
  else if i = 2 then some op_ADD
  else if i = 3 then some op_SUB
  else if i = 4 then some op_JIF
  else if i = 5 then some op_JMR
  else if i = 6 then some op_MPC
  else if i = 7 then some op_IN
  else if i = 8 then some op_OUT
  else if i = 9 then some op_AT
  else if i = 10 then some op_ATP
  else none

/-- Outcome of one loop iteration: the machine keeps running, or the
loop exits (null handler entry, or the `SUS` opcode just ran). -/
inductive Step
  | running (s : PU) (w : World)
  | halted (s : PU) (w : World)
deriving DecidableEq, Repr

/-- The processor component of a step outcome. -/
def Step.pu : Step → PU
  | .running s _ => s
  | .halted s _ => s

/-- One iteration of the do-while loop of `resume_core` (evm.c lines
276-289): fetch the opcode byte at `pc`, advance `pc`, look up
`pcore->op[icode]`.  The table has 32 entries, so an opcode byte of 32
or more indexes past it — undefined behaviour in C, modelled as the
`badDispatch` fault.  A null entry (bytes 11-31) exits the loop; after a
handler runs, the loop exits when the opcode was `SUS` (0). -/
def resume_step (s : PU) (w : World) : Except Fault Step :=
  match s.pmem[s.pc]? with
  | none => .error .oobAccess
  | some icode =>
    let s := { s with pc := (s.pc + 1) % U32 }
    if icode < 32 then
      match op_handler icode with
      | some h =>
        match h s w with
        | .error e => .error e
        | .ok (s', w') =>
          if icode = 0 then .ok (.halted s' w') else .ok (.running s' w')
      | none => .ok (.halted s w)
    else .error .badDispatch

/-- Image file magic `MAGIC` (evm.c line 298). -/
def MAGIC : Nat := 8215

/-- Compiled pool size `MEM_SIZE` (evm.c line 226). -/
def MEM_SIZE : Nat := 128

/-- Four little-endian bytes of a 32-bit unsigned value, as the header
fields of `struct imageheader` (evm.c lines 291-296) appear in the file
on the host. -/
def u32le (n : Nat) : List Nat :=
  [n % 256, n / 256 % 256, n / 65536 % 256, n / 16777216 % 256]

/-- Read a 32-bit little-endian value at a byte offset of a file. -/
def ru32 (bs : List Nat) (off : Nat) : Nat :=
  bs.getD off 0 + 256 * bs.getD (off + 1) 0 + 65536 * bs.getD (off + 2) 0
    + 16777216 * bs.getD (off + 3) 0

/-- The bytes `save_image` (evm.c lines 300-326) writes for a core:
header fields magic, size, memsize, pc, followed by the raw pool. -/
def save_bytes (s : PU) : List Nat :=
  u32le MAGIC ++ u32le ((16 + s.pmemsize) % U32) ++ u32le (s.pmemsize % U32)
    ++ u32le (s.pc % U32) ++ s.pmem

/-- Outcome of `load_image`: a loaded core, a reported failure
(`return -1`, after which `main` exits with status 1), or a process
abort from the failed `assert(0 < h.memsize)`. -/
inductive LoadResult
  | ok (p : PU)
  | fail
  | abort
deriving DecidableEq, Repr

/-- Function `load_image` (evm.c lines 328-384) on a named file, with
the file modelled as `none` when it cannot be opened and `some bs` for
its byte contents: short header, bad magic, pool-size mismatch and
out-of-range `pc` are reported failures, in that order, except that a
zero `memsize` trips `assert(0 < h.memsize)` first and aborts; a file
whose payload is shorter than `memsize` also fails (the read loop hits
end of file).  On success the new pool, its size and `pc` are installed
in the given core — the registers and flags of that core are left
untouched. -/
def load_image (init : PU) (file : Option (List Nat)) : LoadResult :=
  match file with
  | none => .fail
  | some bs =>
    if bs.length < 16 then .fail
    else if ru32 bs 0 ≠ MAGIC then .fail
    else if ru32 bs 8 = 0 then .abort
    else if ru32 bs 8 ≠ MEM_SIZE then .fail
    else if ru32 bs 12 ≥ ru32 bs 8 then .fail
    else if (bs.drop 16).length < ru32 bs 8 then .fail
    else .ok { init with
      pc := ru32 bs 12
      pmem := (bs.drop 16).take (ru32 bs 8)
      pmemsize := ru32 bs 8 }

/-- The global `Core1` as C zero-initialization leaves its state fields
before `load_image` runs from `main`: `pc`, `fr` and all eight registers
zero, no pool installed. -/
def core_init : PU :=
  { pc := 0, fr := 0, r := List.replicate 8 0, pmem := [], pmemsize := 0 }

/-- How far `main` (evm.c lines 386-416) gets with a load path: a failed
`load_image` means `exit(1)` before any instruction executes, a tripped
assert means a process abort, and a successful load proceeds to
`resume_core` with the loaded core. -/
inductive RunOutcome
  | loadFailedExit1
  | aborted
  | ran (p : PU)
deriving DecidableEq, Repr

/-- Composition of `main` with `load_image` on a load path (evm.c lines
409-411). -/
def run_with_image (file : Option (List Nat)) : RunOutcome :=
  match load_image core_init file with
  | .fail => .loadFailedExit1
  | .abort => .aborted
  | .ok p => .ran p

end EVM

namespace EVM

/-- Arithmetic form of the 32-bit modulus. -/
lemma U32_eq : U32 = 2 ^ 32 := by norm_num [U32]

/-- The zero-flag mask is a 32-bit value. -/
lemma FL_ZERO_lt : FL_ZERO < U32 := by rw [U32_eq]; norm_num [FL_ZERO]

/-- The carry-flag mask is a 32-bit value. -/
lemma FL_CARRY_lt : FL_CARRY < U32 := by rw [U32_eq]; norm_num [FL_CARRY]

/-- Bits of the all-ones 32-bit mask used by the flag-clearing path. -/
lemma mask_testBit (j : Nat) : Nat.testBit 4294967295 j = decide (j < 32) := by
  rw [show (4294967295 : Nat) = 2 ^ 32 - 1 by norm_num, Nat.testBit_two_pow_sub_one]

/-- A 32-bit value has no bits at positions 32 and above. -/
lemma testBit_high_false {x : Nat} (hx : x < U32) {i : Nat} (hi : 32 ≤ i) :
    x.testBit i = false := by
  apply Nat.testBit_lt_two_pow
  calc x < 2 ^ 32 := U32_eq ▸ hx
  _ ≤ 2 ^ i := Nat.pow_le_pow_right (by norm_num) hi

/-- Bit-level description of `setflag`. -/
lemma setflag_testBit (fr f : Nat) (e : Bool) (i : Nat)
    (hfr : fr < U32) (hf : f < U32) :
    (setflag fr e f).testBit i = if f.testBit i then e else fr.testBit i := by
  cases e with
  | true =>
    simp only [setflag, if_pos, Nat.testBit_or]
    cases h : f.testBit i <;> simp [h]
  | false =>
    simp only [setflag, Bool.false_eq_true, if_neg, Nat.testBit_and, Nat.testBit_xor,
      mask_testBit]
    by_cases hi : i < 32
    · cases h : f.testBit i <;> simp [h, hi, mask_testBit]
    · have hfrb : fr.testBit i = false := testBit_high_false hfr (by omega)
      have hfb : f.testBit i = false := testBit_high_false hf (by omega)
      simp [hfrb, hfb, hi, mask_testBit]

/-- The flags register stays a 32-bit value under `setflag`. -/
lemma setflag_lt (fr f : Nat) (e : Bool) (hfr : fr < U32) (hf : f < U32) :
    setflag fr e f < U32 := by
  cases e with
  | true =>
    have := Nat.or_lt_two_pow (U32_eq ▸ hfr) (U32_eq ▸ hf)
    simpa only [setflag, if_pos, U32_eq] using this
  | false =>
    simp only [setflag, Bool.false_eq_true, if_neg]
    exact lt_of_le_of_lt Nat.and_le_left hfr

/-- The flags register stays a 32-bit value under `setcf`. -/
lemma setcf_lt (fr : Nat) (e : Bool) (hfr : fr < U32) : setcf fr e < U32 :=
  setflag_lt fr FL_CARRY e hfr FL_CARRY_lt

/-- Bit-level description of `setzf`. -/
lemma setzf_testBit (fr : Nat) (e : Bool) (i : Nat) (hfr : fr < U32) :
    (setzf fr e).testBit i = if i = 0 then e else fr.testBit i := by
  rw [setzf, setflag_testBit fr FL_ZERO e i hfr FL_ZERO_lt]
  have h1 : (FL_ZERO : Nat).testBit i = decide (0 = i) := by
    rw [show (FL_ZERO : Nat) = 2 ^ 0 by norm_num [FL_ZERO], Nat.testBit_two_pow]
  rw [h1]
  rcases eq_or_ne i 0 with h | h
  · simp [h]
  · simp [h, Ne.symm h]

/-- Bit-level description of `setcf`. -/
lemma setcf_testBit (fr : Nat) (e : Bool) (i : Nat) (hfr : fr < U32) :
    (setcf fr e).testBit i = if i = 1 then e else fr.testBit i := by
  rw [setcf, setflag_testBit fr FL_CARRY e i hfr FL_CARRY_lt]
  have h1 : (FL_CARRY : Nat).testBit i = decide (1 = i) := by
    rw [show (FL_CARRY : Nat) = 2 ^ 1 by norm_num [FL_CARRY], Nat.testBit_two_pow]
  rw [h1]
  rcases eq_or_ne i 1 with h | h
  · simp [h]
  · simp [h, Ne.symm h]

/-- Testing the ZERO flag reads bit 0. -/
lemma isflag_zero_bit (x : Nat) : isflag x FL_ZERO = x.testBit 0 := by
  have h : isflag x FL_ZERO = (x &&& 2 ^ 0 != 0) := by norm_num [isflag, FL_ZERO]
  rw [h, Nat.and_two_pow]
  cases hb : x.testBit 0 <;> simp [hb]

/-- Testing the CARRY flag reads bit 1. -/
lemma isflag_carry_bit (x : Nat) : isflag x FL_CARRY = x.testBit 1 := by
  have h : isflag x FL_CARRY = (x &&& 2 ^ 1 != 0) := by norm_num [isflag, FL_CARRY]
  rw [h, Nat.and_two_pow]
  cases hb : x.testBit 1 <;> simp [hb]

/-- After the `setcf` then `setzf` sequence of ADD and SUB, the ZERO flag
is exactly the value just computed, whatever the previous flags were. -/
lemma flags_after_arith_zero (fr : Nat) (c z : Bool) (hfr : fr < U32) :
    isflag (setzf (setcf fr c) z) FL_ZERO = z := by
  rw [isflag_zero_bit, setzf_testBit _ _ _ (setcf_lt fr c hfr)]
  simp

/-- After the `setcf` then `setzf` sequence, the CARRY flag is exactly
the value just computed, whatever the previous flags were. -/
lemma flags_after_arith_carry (fr : Nat) (c z : Bool) (hfr : fr < U32) :
    isflag (setzf (setcf fr c) z) FL_CARRY = c := by
  rw [isflag_carry_bit, setzf_testBit _ _ _ (setcf_lt fr c hfr),
    setcf_testBit _ _ _ hfr]
  simp

/-- The `setcf` then `setzf` sequence leaves every flag bit above CARRY
unchanged. -/
lemma flags_after_arith_high (fr : Nat) (c z : Bool) (i : Nat)
    (hfr : fr < U32) (hi : 2 ≤ i) :
    (setzf (setcf fr c) z).testBit i = fr.testBit i := by
  rw [setzf_testBit _ _ _ (setcf_lt fr c hfr), setcf_testBit _ _ _ hfr]
  have h0 : i ≠ 0 := by omega
  have h1 : i ≠ 1 := by omega
  simp [h0, h1]

end EVM

namespace EVM

/-- Fetching an operand byte leaves the flags register unchanged. -/
lemma fetchOperand_fr {s : PU} {b : Nat} {s1 : PU} (h : fetchOperand s = .ok (b, s1)) :
    s1.fr = s.fr := by
  simp only [fetchOperand] at h
  split at h
  · simp only [Except.ok.injEq, Prod.mk.injEq] at h
    rw [← h.2]
  · simp at h

/-- A successful `obj_write` leaves the flags register unchanged. -/
lemma obj_write_fr {s : PU} {a e : Nat} {s1 : PU} (h : obj_write s a e = .ok s1) :
    s1.fr = s.fr := by
  simp only [obj_write] at h
  split at h
  · simp at h
  · split at h
    · simp at h
    · split at h
      · split at h
        · simp only [Except.ok.injEq] at h
          rw [← h]
        · simp at h
      · split at h
        · simp only [Except.ok.injEq] at h
          rw [← h]
        · simp at h

/-- A successful MOV leaves the flags register unchanged. -/
lemma op_MOV_fr {s : PU} {w : World} {s1 : PU} {w1 : World}
    (h : op_MOV s w = .ok (s1, w1)) : s1.fr = s.fr := by
  unfold op_MOV at h
  cases h1 : fetchOperand s with
  | error e => simp [h1, Bind.bind, Except.bind] at h
  | ok p =>
    obtain ⟨b1, t1⟩ := p
    cases h2 : fetchOperand t1 with
    | error e => simp [h1, h2, Bind.bind, Except.bind] at h
    | ok q =>
      obtain ⟨b2, t2⟩ := q
      cases h3 : obj_write t2 b2 b1 with
      | error e => simp [h1, h2, h3, Bind.bind, Except.bind] at h
      | ok t3 =>
        simp [h1, h2, h3, Bind.bind, Except.bind, Pure.pure, Except.pure] at h
        rw [← h.1, obj_write_fr h3, fetchOperand_fr h2, fetchOperand_fr h1]

/-- SUS leaves the flags register unchanged. -/
lemma op_SUS_fr {s : PU} {w : World} {s1 : PU} {w1 : World}
    (h : op_SUS s w = .ok (s1, w1)) : s1.fr = s.fr := by
  simp only [op_SUS, Except.ok.injEq, Prod.mk.injEq] at h
  rw [← h.1]

/-- A successful JIF leaves the flags register unchanged (it only reads it). -/
lemma op_JIF_fr {s : PU} {w : World} {s1 : PU} {w1 : World}
    (h : op_JIF s w = .ok (s1, w1)) : s1.fr = s.fr := by
  unfold op_JIF at h
  cases h1 : fetchOperand s with
  | error e => simp [h1, Bind.bind, Except.bind] at h
  | ok p =>
    obtain ⟨b1, t1⟩ := p
    cases h2 : fetchOperand t1 with
    | error e => simp [h1, h2, Bind.bind, Except.bind] at h
    | ok q =>
      obtain ⟨b2, t2⟩ := q
      by_cases hf : isflag t2.fr b1
      · simp [h1, h2, hf, Bind.bind, Except.bind, Pure.pure, Except.pure] at h
        rw [← h.1, fetchOperand_fr h2, fetchOperand_fr h1]
      · cases h3 : obj_read t2 b2 with
        | error e => simp [h1, h2, h3, hf, Bind.bind, Except.bind] at h
        | ok t =>
          simp [h1, h2, h3, hf, Bind.bind, Except.bind, Pure.pure, Except.pure] at h
          rw [← h.1]
          rw [fetchOperand_fr h2, fetchOperand_fr h1]

/-- A successful JMR leaves the flags register unchanged. -/
lemma op_JMR_fr {s : PU} {w : World} {s1 : PU} {w1 : World}
    (h : op_JMR s w = .ok (s1, w1)) : s1.fr = s.fr := by
  unfold op_JMR at h
  cases h1 : fetchOperand s with
  | error e => simp [h1, Bind.bind, Except.bind] at h
  | ok p =>
    obtain ⟨b1, t1⟩ := p
    cases h2 : obj_read t1 b1 with
    | error e => simp [h1, h2, Bind.bind, Except.bind] at h
    | ok t =>
      simp [h1, h2, Bind.bind, Except.bind, Pure.pure, Except.pure] at h
      rw [← h.1]
      rw [fetchOperand_fr h1]

/-- A successful MPC leaves the flags register unchanged. -/
lemma op_MPC_fr {s : PU} {w : World} {s1 : PU} {w1 : World}
    (h : op_MPC s w = .ok (s1, w1)) : s1.fr = s.fr := by
  unfold op_MPC at h
  cases h1 : fetchOperand s with
  | error e => simp [h1, Bind.bind, Except.bind] at h
  | ok p =>
    obtain ⟨b1, t1⟩ := p
    cases h2 : obj_write t1 b1 (num_ t1.pc) with
    | error e => simp [h1, h2, Bind.bind, Except.bind] at h
    | ok t2 =>
      simp [h1, h2, Bind.bind, Except.bind, Pure.pure, Except.pure] at h
      rw [← h.1, obj_write_fr h2, fetchOperand_fr h1]

/-- A successful IN leaves the flags register unchanged. -/
lemma op_IN_fr {s : PU} {w : World} {s1 : PU} {w1 : World}
    (h : op_IN s w = .ok (s1, w1)) : s1.fr = s.fr := by
  unfold op_IN at h
  cases h1 : fetchOperand s with
  | error e => simp [h1, Bind.bind, Except.bind] at h
  | ok p =>
    obtain ⟨b1, t1⟩ := p
    cases h2 : fetchOperand t1 with
    | error e => simp [h1, h2, Bind.bind, Except.bind] at h
    | ok q =>
      obtain ⟨b2, t2⟩ := q
      rcases hgi : getinp w b1 with ⟨v, w2⟩
      cases h3 : obj_write t2 b2 (num_ v) with
      | error e => simp [h1, h2, h3, hgi, Bind.bind, Except.bind] at h
      | ok t3 =>
        simp [h1, h2, h3, hgi, Bind.bind, Except.bind, Pure.pure, Except.pure] at h
        rw [← h.1, obj_write_fr h3, fetchOperand_fr h2, fetchOperand_fr h1]

/-- A successful OUT leaves the flags register unchanged. -/
lemma op_OUT_fr {s : PU} {w : World} {s1 : PU} {w1 : World}
    (h : op_OUT s w = .ok (s1, w1)) : s1.fr = s.fr := by
  unfold op_OUT at h
  cases h1 : fetchOperand s with
  | error e => simp [h1, Bind.bind, Except.bind] at h
  | ok p =>
    obtain ⟨b1, t1⟩ := p
    cases h2 : fetchOperand t1 with
    | error e => simp [h1, h2, Bind.bind, Except.bind] at h
    | ok q =>
      obtain ⟨b2, t2⟩ := q
      cases h3 : obj_read t2 b2 with
      | error e => simp [h1, h2, h3, Bind.bind, Except.bind] at h
      | ok v =>
        simp [h1, h2, h3, Bind.bind, Except.bind, Pure.pure, Except.pure] at h
        rw [← h.1, fetchOperand_fr h2, fetchOperand_fr h1]

/-- A successful AT leaves the flags register unchanged. -/
lemma op_AT_fr {s : PU} {w : World} {s1 : PU} {w1 : World}
    (h : op_AT s w = .ok (s1, w1)) : s1.fr = s.fr := by
  unfold op_AT at h
  cases h1 : fetchOperand s with
  | error e => simp [h1, Bind.bind, Except.bind] at h
  | ok p =>
    obtain ⟨b1, t1⟩ := p
    cases h2 : fetchOperand t1 with
    | error e => simp [h1, h2, Bind.bind, Except.bind] at h
    | ok q =>
      obtain ⟨b2, t2⟩ := q
      by_cases hn1 : isnum b1
      · simp [h1, h2, hn1, Bind.bind, Except.bind] at h
      · by_cases hn2 : isnum b2
        · simp [h1, h2, hn1, hn2, Bind.bind, Except.bind] at h
        · cases h3 : obj_read t2 b1 with
          | error e => simp [h1, h2, h3, hn1, hn2, Bind.bind, Except.bind] at h
          | ok a =>
            cases h4 : obj_write t2 b2 (addr_ a) with
            | error e => simp [h1, h2, h3, h4, hn1, hn2, Bind.bind, Except.bind] at h
            | ok t3 =>
              simp [h1, h2, h3, h4, hn1, hn2, Bind.bind, Except.bind, Pure.pure, Except.pure] at h
              rw [← h.1, obj_write_fr h4, fetchOperand_fr h2, fetchOperand_fr h1]

/-- A successful ATP leaves the flags register unchanged. -/
lemma op_ATP_fr {s : PU} {w : World} {s1 : PU} {w1 : World}
    (h : op_ATP s w = .ok (s1, w1)) : s1.fr = s.fr := by
  unfold op_ATP at h
  cases h1 : fetchOperand s with
  | error e => simp [h1, Bind.bind, Except.bind] at h
  | ok p =>
    obtain ⟨b1, t1⟩ := p
    cases h2 : fetchOperand t1 with
    | error e => simp [h1, h2, Bind.bind, Except.bind] at h
    | ok q =>
      obtain ⟨b2, t2⟩ := q
      by_cases hn : isnum b2
      · simp [h1, h2, hn, Bind.bind, Except.bind] at h
      · cases h3 : obj_read t2 b2 with
        | error e => simp [h1, h2, h3, hn, Bind.bind, Except.bind] at h
        | ok a =>
          cases h4 : obj_write t2 (addr_ a) b1 with
          | error e => simp [h1, h2, h3, h4, hn, Bind.bind, Except.bind] at h
          | ok t3 =>
            simp [h1, h2, h3, h4, hn, Bind.bind, Except.bind, Pure.pure, Except.pure] at h
            rw [← h.1, obj_write_fr h4, fetchOperand_fr h2, fetchOperand_fr h1]

/-- Every registered handler other than ADD (2) and SUB (3) leaves the flags register unchanged on success. -/
lemma op_handler_fr {b : Nat} {h : PU → World → Except Fault (PU × World)}
    (hb2 : b ≠ 2) (hb3 : b ≠ 3) (hoh : op_handler b = some h) :
    ∀ s w s1 w1, h s w = .ok (s1, w1) → s1.fr = s.fr := by
  unfold op_handler at hoh
  split_ifs at hoh with e0 e1 e2 e3 e4 e5 e6 e7 e8
  · cases hoh
    exact fun s w s1 w1 hh => op_SUS_fr hh
  · cases hoh
    exact fun s w s1 w1 hh => op_MOV_fr hh
  · cases hoh
    exact fun s w s1 w1 hh => op_JIF_fr hh
  · cases hoh
    exact fun s w s1 w1 hh => op_JMR_fr hh
  · cases hoh
    exact fun s w s1 w1 hh => op_MPC_fr hh
  · cases hoh
    exact fun s w s1 w1 hh => op_IN_fr hh
  · cases hoh
    exact fun s w s1 w1 hh => op_OUT_fr hh
  · cases hoh
    exact fun s w s1 w1 hh => op_AT_fr hh
  · cases hoh
    exact fun s w s1 w1 hh => op_ATP_fr hh

/-- One loop iteration on any opcode byte other than ADD (2) and SUB (3) leaves the flags register unchanged when it completes without a fault. -/
lemma resume_step_fr {s : PU} {w : World} {out : Step} {b : Nat}
    (hb : s.pmem[s.pc]? = some b) (hb2 : b ≠ 2) (hb3 : b ≠ 3)
    (hstep : resume_step s w = .ok out) : out.pu.fr = s.fr := by
  unfold resume_step at hstep
  rw [hb] at hstep
  dsimp only at hstep
  by_cases h32 : b < 32
  · rw [if_pos h32] at hstep
    rcases hoh : op_handler b with _ | h
    · rw [hoh] at hstep
      dsimp only at hstep
      cases hstep
      rfl
    · rw [hoh] at hstep
      dsimp only at hstep
      cases hX : h { s with pc := (s.pc + 1) % U32 } w with
      | error e =>
        rw [hX] at hstep
        simp at hstep
      | ok p =>
        obtain ⟨t, w'⟩ := p
        rw [hX] at hstep
        dsimp only at hstep
        have hfr : t.fr = s.fr :=
          op_handler_fr hb2 hb3 hoh { s with pc := (s.pc + 1) % U32 } w t w' hX
        by_cases hb0 : b = 0
        · rw [if_pos hb0] at hstep
          cases hstep
          exact hfr
        · rw [if_neg hb0] at hstep
          cases hstep
          exact hfr
  · rw [if_neg h32] at hstep
    simp at hstep

end EVM

namespace EVM

/-- Effect of one ADD step on a representative family of states: the
program `ADD reg1, reg0` at pc 0 with register 0 holding `old` and
register 1 holding `delta`.  The write-back is the unmasked 32-bit sum
encoded and re-decoded as a literal; the carry test `new < old` can
never fire for byte-sized operands. -/
lemma add_family_eq (old delta fr : Nat) (w : World)
    (h1 : old < 256) (h2 : delta < 256) :
    resume_step ⟨0, fr, [old, delta, 0, 0, 0, 0, 0, 0], [2, 2, 0], 3⟩ w =
      .ok (.running ⟨3, setzf (setcf fr false) (old + delta == 0),
        [old + delta, delta, 0, 0, 0, 0, 0, 0], [2, 2, 0], 3⟩ w) := by
  have hU : old + delta < U32 := by rw [U32_eq]; omega
  have e1 : (old + delta) % U32 = old + delta := Nat.mod_eq_of_lt hU
  have e2 : ((old + delta) * 2 + 1) % U32 = (old + delta) * 2 + 1 := by
    rw [U32_eq]; apply Nat.mod_eq_of_lt; omega
  have e3 : ¬ (old + delta < old) := by omega
  have p1 : (1 : Nat) % U32 = 1 := by rw [U32_eq]; norm_num
  have p2 : (2 : Nat) % U32 = 2 := by rw [U32_eq]; norm_num
  have p3 : (3 : Nat) % U32 = 3 := by rw [U32_eq]; norm_num
  have e4 : ((old + delta) * 2 + 1) % 2 = 1 := by omega
  have e5 : ((old + delta) * 2 + 1) / 2 = old + delta := by omega
  simp [resume_step, op_handler, op_ADD, fetchOperand, obj_read, obj_write, isnum, tonum,
    num_, e1, e2, e3, e4, e5, p1, p2, p3, Bind.bind, Except.bind, Functor.map, Except.map,
    Except.instMonad, Pure.pure, Except.pure]

/-- Effect of one SUB step on the representative family `SUB reg1, reg0`
with register 0 holding `old` and register 1 holding `delta`: the 32-bit
difference wraps at `2 ^ 32`, and its literal encoding wraps once more at
`2 ^ 32`, so the decoded write-back lands at `2 ^ 31 - (delta - old)`
when a borrow occurs. -/
lemma sub_family_eq (old delta fr : Nat) (w : World)
    (h1 : old < 256) (h2 : delta < 256) :
    resume_step ⟨0, fr, [old, delta, 0, 0, 0, 0, 0, 0], [3, 2, 0], 3⟩ w =
      .ok (.running ⟨3,
        setzf (setcf fr (decide (old < delta))) (old == delta),
        [if delta ≤ old then old - delta else 2147483648 - (delta - old),
          delta, 0, 0, 0, 0, 0, 0],
        [3, 2, 0], 3⟩ w) := by
  have hU32 : U32 = 4294967296 := rfl
  have p1 : (1 : Nat) % U32 = 1 := by rw [hU32]
  have p2 : (2 : Nat) % U32 = 2 := by rw [hU32]
  have p3 : (3 : Nat) % U32 = 3 := by rw [hU32]
  have hd : delta % U32 = delta := by rw [hU32]; omega
  rcases le_or_lt delta old with hc | hc
  · have hnew : (old + (U32 - delta)) % U32 = old - delta := by rw [hU32]; omega
    have e2 : ((old - delta) * 2 + 1) % U32 = (old - delta) * 2 + 1 := by rw [hU32]; omega
    have e3 : ¬ ((old - delta) * 2 + 1) % 2 = 0 := by omega
    have e4 : ((old - delta) * 2 + 1) % 2 = 1 := by omega
    have e5 : ((old - delta) * 2 + 1) / 2 = old - delta := by omega
    have hcar : ¬ (old - delta > old) := by omega
    have hcar2 : decide (old < delta) = false := by simp; omega
    have hz : ((old - delta == 0) : Bool) = (old == delta) := by
      by_cases h : old = delta
      · simp [h]
      · have h0 : ¬ (old - delta = 0) := by omega
        simp [h, h0]
    have hif : (if delta ≤ old then old - delta else 2147483648 - (delta - old)) = old - delta :=
      if_pos hc
    simp [resume_step, op_handler, op_SUB, fetchOperand, obj_read, obj_write, isnum, tonum,
      num_, hd, hnew, e2, e3, e4, e5, hcar, hcar2, hz, hif, p1, p2, p3,
      Bind.bind, Except.bind, Functor.map, Except.map, Except.instMonad, Pure.pure, Except.pure]
  · have hnew : (old + (U32 - delta)) % U32 = 4294967296 - (delta - old) := by rw [hU32]; omega
    have e2 : ((4294967296 - (delta - old)) * 2 + 1) % U32 = 4294967296 - 2 * (delta - old) + 1 := by
      rw [hU32]; omega
    have e4 : (4294967296 - 2 * (delta - old) + 1) % 2 = 1 := by omega
    have e5 : (4294967296 - 2 * (delta - old) + 1) / 2 = 2147483648 - (delta - old) := by omega
    have hcar : 4294967296 - (delta - old) > old := by omega
    have hcar2 : decide (old < delta) = true := by simp; omega
    have hz0 : ¬ (4294967296 - (delta - old) = 0) := by omega
    have hzb : ((4294967296 - (delta - old) == 0) : Bool) = false := by simp [hz0]
    have hz : (old == delta) = false := by
      have h : ¬ (old = delta) := by omega
      simp [h]
    have hif : (if delta ≤ old then old - delta else 2147483648 - (delta - old))
        = 2147483648 - (delta - old) := if_neg (by omega)
    simp [resume_step, op_handler, op_SUB, fetchOperand, obj_read, obj_write, isnum, tonum,
      num_, hd, hnew, e2, e4, e5, hcar, hcar2, hz0, hzb, hz, hif, p1, p2, p3,
      Bind.bind, Except.bind, Functor.map, Except.map, Except.instMonad, Pure.pure, Except.pure]

end EVM

namespace EVM

/-- C1 (amended): executing ADD on byte operands `old`, `delta` (source
register 1, destination register 0) stores the unmasked sum
`old + delta` into the destination register — not `(old + delta) mod
256` — always clears CARRY (the 32-bit wraparound test `new < old`
cannot fire for byte operands), and sets ZERO exactly when the unmasked
sum is zero; `pc` advances past the three instruction bytes. -/
theorem add_stores_unmasked_sum (old delta fr : Nat) (w : World)
    (h1 : old < 256) (h2 : delta < 256) (hfr : fr < U32) :
    ∃ s1, resume_step ⟨0, fr, [old, delta, 0, 0, 0, 0, 0, 0], [2, 2, 0], 3⟩ w
        = .ok (.running s1 w)
      ∧ s1.r = [old + delta, delta, 0, 0, 0, 0, 0, 0]
      ∧ isflag s1.fr FL_CARRY = false
      ∧ isflag s1.fr FL_ZERO = (old + delta == 0)
      ∧ s1.pc = 3 ∧ s1.pmem = [2, 2, 0] := by
  refine ⟨_, add_family_eq old delta fr w h1 h2, rfl, ?_, ?_, rfl, rfl⟩
  · exact flags_after_arith_carry fr false _ hfr
  · exact flags_after_arith_zero fr false _ hfr

/-- C1 witness: ADD with old = 3, delta = 5 stores 8, carry and zero
clear. -/
theorem add_stores_unmasked_sum_witness :
    ∃ s1, resume_step ⟨0, 0, [3, 5, 0, 0, 0, 0, 0, 0], [2, 2, 0], 3⟩ ⟨[], []⟩
        = .ok (.running s1 ⟨[], []⟩)
      ∧ s1.r = [8, 5, 0, 0, 0, 0, 0, 0]
      ∧ isflag s1.fr FL_CARRY = false
      ∧ isflag s1.fr FL_ZERO = false
      ∧ s1.pc = 3 ∧ s1.pmem = [2, 2, 0] :=
  add_stores_unmasked_sum 3 5 0 ⟨[], []⟩ (by decide) (by decide) (by decide)

/-- C1 counterexample: with registers[0] = 255, executing ADD
literal(1), reg(0) stores 256 (not (255 + 1) mod 256 = 0) and leaves
both CARRY and ZERO clear, though the claim demands CARRY set (since
255 + 1 is at least 256) and ZERO set (since the mod-256 result is 0). -/
theorem add_mod256_claim_counterexample :
    resume_step ⟨0, 0, [255, 0, 0, 0, 0, 0, 0, 0], [2, 3, 0], 3⟩ ⟨[], []⟩
        = .ok (.running ⟨3, 0, [256, 0, 0, 0, 0, 0, 0, 0], [2, 3, 0], 3⟩ ⟨[], []⟩)
      ∧ (256 : Nat) ≠ (255 + 1) % 256
      ∧ isflag 0 FL_CARRY = false ∧ isflag 0 FL_ZERO = false
      ∧ 256 ≤ 255 + 1 :=
  ⟨by rfl, by decide, by rfl, by rfl, by decide⟩

/-- C2 (amended): stores into a RAM cell are masked to one byte, so a
successful `obj_write` preserves the all-bytes invariant of the pool;
but stores into a register are not masked: the IN handler writes the
full input value (any `v` below `2 ^ 31`) into the destination
register, so register slots are not confined to 0..255. -/
theorem register_width_amended :
    (∀ (s : PU) (a e : Nat) (s1 : PU), obj_write s a e = .ok s1 →
      (∀ b ∈ s.pmem, b < 256) → (∀ b ∈ s1.pmem, b < 256))
    ∧ (∀ v rest outs, v < 2147483648 →
        resume_step ⟨0, 0, [0, 0, 0, 0, 0, 0, 0, 0], [7, 1, 0], 3⟩ ⟨v :: rest, outs⟩ =
          .ok (.running ⟨3, 0, [v, 0, 0, 0, 0, 0, 0, 0], [7, 1, 0], 3⟩ ⟨rest, outs⟩)) := by
  constructor
  · intro s a e s1 h hb
    simp only [obj_write] at h
    split at h
    · simp at h
    · split at h
      · simp at h
      · split at h
        · split at h
          · simp only [Except.ok.injEq] at h
            rw [← h]
            simpa using hb
          · simp at h
        · split at h
          · simp only [Except.ok.injEq] at h
            rw [← h]
            intro b hbmem
            rcases List.mem_or_eq_of_mem_set hbmem with hmem | heq
            · exact hb b hmem
            · rw [heq]
              omega
          · simp at h
  · intro v rest outs hv
    have hU32 : U32 = 4294967296 := rfl
    have p1 : (1 : Nat) % U32 = 1 := by rw [hU32]
    have p2 : (2 : Nat) % U32 = 2 := by rw [hU32]
    have p3 : (3 : Nat) % U32 = 3 := by rw [hU32]
    have e2 : (v * 2 + 1) % U32 = v * 2 + 1 := by rw [hU32]; omega
    have e4 : (v * 2 + 1) % 2 = 1 := by omega
    have e5 : (v * 2 + 1) / 2 = v := by omega
    simp [resume_step, op_handler, op_IN, fetchOperand, obj_read, obj_write, getinp,
      isnum, tonum, num_, e2, e4, e5, p1, p2, p3, Bind.bind, Except.bind, Functor.map,
      Except.map, Except.instMonad, Pure.pure, Except.pure]

/-- C2 witness: a masked RAM store keeps the pool byte-sized, and IN
with input value 300 leaves 300 in register 0. -/
theorem register_width_amended_witness :
    (∀ b ∈ (List.replicate 17 5).set 16 1, b < 256)
    ∧ resume_step ⟨0, 0, [0, 0, 0, 0, 0, 0, 0, 0], [7, 1, 0], 3⟩ ⟨[300], []⟩ =
        .ok (.running ⟨3, 0, [300, 0, 0, 0, 0, 0, 0, 0], [7, 1, 0], 3⟩ ⟨[], []⟩) :=
  ⟨register_width_amended.1 ⟨0, 0, [0, 0, 0, 0, 0, 0, 0, 0], List.replicate 17 5, 17⟩ 32 3
      ⟨0, 0, [0, 0, 0, 0, 0, 0, 0, 0], (List.replicate 17 5).set 16 1, 17⟩ (by rfl) (by decide),
    register_width_amended.2 300 [] [] (by decide)⟩

/-- C2 counterexample: the INPUT opcode on the numeric channel with
input value 300 stores 300 — wider than one byte — into register 0. -/
theorem register_byte_invariant_counterexample :
    resume_step ⟨0, 0, [0, 0, 0, 0, 0, 0, 0, 0], [7, 1, 0], 3⟩ ⟨[300], []⟩
        = .ok (.running ⟨3, 0, [300, 0, 0, 0, 0, 0, 0, 0], [7, 1, 0], 3⟩ ⟨[], []⟩)
      ∧ ¬ (300 < 256) :=
  ⟨by rfl, by decide⟩

end EVM

namespace EVM

/-- C3: for a decoded Reference operand byte `2 * i` with resolved index
`i` in 8..15, the guard `index < 16` of `obj_read` and `obj_write` sends
the access to the 8-element register array — past its end, which is
undefined behaviour in the C — instead of the plain memory cell at `i`
that the claim describes. -/
theorem register_guard_out_of_bounds (s : PU) (i : Nat) (hr : s.r.length = 8)
    (h8 : 8 ≤ i) (h16 : i < 16) :
    obj_read s (2 * i) = .error .oobAccess ∧
      obj_write s (2 * i) 3 = .error .oobAccess := by
  have hisnum : isnum (2 * i) = false := by simp [isnum]
  have hdiv : 2 * i / 2 = i := by omega
  have hnone : s.r[i]? = none := List.getElem?_eq_none (by omega)
  refine ⟨?_, ?_⟩
  · simp [obj_read, hisnum, hdiv, h16, hnone]
  · simp [obj_write, obj_read, isnum, tonum, hisnum, hdiv, h16, hr]
    omega

/-- C3 witness: on a well-formed core (8 registers, 128-byte pool), the
reference byte 16 — resolved index 8 — faults in both access paths. -/
theorem register_guard_out_of_bounds_witness :
    obj_read ⟨0, 0, [0, 0, 0, 0, 0, 0, 0, 0], List.replicate 128 7, 128⟩ 16
        = .error .oobAccess
      ∧ obj_write ⟨0, 0, [0, 0, 0, 0, 0, 0, 0, 0], List.replicate 128 7, 128⟩ 16 3
        = .error .oobAccess :=
  register_guard_out_of_bounds ⟨0, 0, [0, 0, 0, 0, 0, 0, 0, 0], List.replicate 128 7, 128⟩ 8
    (by rfl) (by decide) (by decide)

/-- C4 (amended): executing SUB on byte operands (source register 1,
destination register 0) stores into the register the doubly-wrapped
value — `old - delta` without borrow, `2 ^ 31 - (delta - old)` with
borrow (the 32-bit difference re-wrapped by the literal encoding) —
which agrees with `(old - delta) mod 256` only modulo 256; CARRY is set
exactly when `delta > old` and ZERO exactly when `old = delta`. -/
theorem sub_stores_wrapped_u32 (old delta fr : Nat) (w : World)
    (h1 : old < 256) (h2 : delta < 256) (hfr : fr < U32) :
    ∃ s1, resume_step ⟨0, fr, [old, delta, 0, 0, 0, 0, 0, 0], [3, 2, 0], 3⟩ w
        = .ok (.running s1 w)
      ∧ s1.r = [if delta ≤ old then old - delta else 2147483648 - (delta - old),
          delta, 0, 0, 0, 0, 0, 0]
      ∧ (if delta ≤ old then old - delta else 2147483648 - (delta - old)) % 256
          = (old + 256 - delta) % 256
      ∧ isflag s1.fr FL_CARRY = decide (old < delta)
      ∧ isflag s1.fr FL_ZERO = (old == delta)
      ∧ s1.pc = 3 := by
  refine ⟨_, sub_family_eq old delta fr w h1 h2, rfl, ?_, ?_, ?_, rfl⟩
  · rcases le_or_lt delta old with hc | hc
    · rw [if_pos hc]
      omega
    · rw [if_neg (by omega)]
      omega
  · exact flags_after_arith_carry fr _ _ hfr
  · exact flags_after_arith_zero fr _ _ hfr

/-- C4 witness: SUB with old = 3, delta = 5 stores 2147483646, whose low
byte is 254, with CARRY set and ZERO clear. -/
theorem sub_stores_wrapped_u32_witness :
    ∃ s1, resume_step ⟨0, 0, [3, 5, 0, 0, 0, 0, 0, 0], [3, 2, 0], 3⟩ ⟨[], []⟩
        = .ok (.running s1 ⟨[], []⟩)
      ∧ s1.r = [2147483646, 5, 0, 0, 0, 0, 0, 0]
      ∧ (2147483646 : Nat) % 256 = 254
      ∧ isflag s1.fr FL_CARRY = true
      ∧ isflag s1.fr FL_ZERO = false
      ∧ s1.pc = 3 :=
  sub_stores_wrapped_u32 3 5 0 ⟨[], []⟩ (by decide) (by decide) (by decide)

/-- C4 counterexample: the claimed concrete scenario — registers[0] = 3
and instruction SUB literal(5), reg(0) — leaves 2147483646 in
registers[0], not the claimed 254 (CARRY set and ZERO clear do hold). -/
theorem sub_scenario_counterexample :
    resume_step ⟨0, 0, [3, 0, 0, 0, 0, 0, 0, 0], [3, 11, 0], 3⟩ ⟨[], []⟩
        = .ok (.running ⟨3, 2, [2147483646, 0, 0, 0, 0, 0, 0, 0], [3, 11, 0], 3⟩ ⟨[], []⟩)
      ∧ (2147483646 : Nat) ≠ 254
      ∧ isflag 2 FL_CARRY = true ∧ isflag 2 FL_ZERO = false :=
  ⟨by rfl, by decide, by rfl, by rfl⟩

/-- C5 (amended): AT resolves its first operand to an index `a`, passes
the address encoding `2 * a` as the value operand of the write routine,
and the write routine resolves that encoding again as a reference — so
the destination receives the value stored at index `a` (an indirect
load), not the encoded address itself. -/
theorem at_is_indirect_load (a v fr : Nat) (w : World) (pm : List Nat)
    (h0 : pm[0]? = some 9) (hp1 : pm[1]? = some 2) (hp2 : pm[2]? = some 0)
    (ha : pm[a]? = some v) (h16 : 16 ≤ a) (h128 : a < 128) :
    resume_step ⟨0, fr, [0, a, 0, 0, 0, 0, 0, 0], pm, 128⟩ w =
      .ok (.running ⟨3, fr, [v, a, 0, 0, 0, 0, 0, 0], pm, 128⟩ w) := by
  have hU32 : U32 = 4294967296 := rfl
  have p1 : (1 : Nat) % U32 = 1 := by rw [hU32]
  have p2 : (2 : Nat) % U32 = 2 := by rw [hU32]
  have p3 : (3 : Nat) % U32 = 3 := by rw [hU32]
  have ha2 : (a * 2) % U32 = a * 2 := by rw [hU32]; omega
  have ha2e : ¬ (a * 2 % 2 = 1) := by omega
  have ha2d : a * 2 / 2 = a := by omega
  have hano : ¬ (a < 16) := by omega
  simp [resume_step, op_handler, op_AT, fetchOperand, obj_read, obj_write, isnum, tonum,
    addr_, p1, p2, p3, h0, hp1, hp2, ha, ha2, ha2e, ha2d, hano,
    Bind.bind, Except.bind, Functor.map, Except.map, Except.instMonad, Pure.pure, Except.pure]

/-- C5 witness: with register 1 holding 30 and memory cell 30 holding
77, AT reg(1), reg(0) leaves 77 in register 0. -/
theorem at_is_indirect_load_witness :
    resume_step ⟨0, 0, [0, 30, 0, 0, 0, 0, 0, 0],
        ([9, 2, 0] ++ List.replicate 125 0).set 30 77, 128⟩ ⟨[], []⟩ =
      .ok (.running ⟨3, 0, [77, 30, 0, 0, 0, 0, 0, 0],
        ([9, 2, 0] ++ List.replicate 125 0).set 30 77, 128⟩ ⟨[], []⟩) :=
  at_is_indirect_load 30 77 0 ⟨[], []⟩ (([9, 2, 0] ++ List.replicate 125 0).set 30 77)
    (by rfl) (by rfl) (by rfl) (by rfl) (by decide) (by decide)

/-- C5 counterexample: with register 1 holding 20 and memory cell 20
holding 99, AT reg(1), reg(0) leaves 99 — the value stored at index 20 —
in register 0, not the encoded address 40 the claim demands. -/
theorem at_address_encoding_counterexample :
    resume_step ⟨0, 0, [0, 20, 0, 0, 0, 0, 0, 0],
        [9, 2, 0] ++ List.replicate 17 0 ++ [99], 21⟩ ⟨[], []⟩
      = .ok (.running ⟨3, 0, [99, 20, 0, 0, 0, 0, 0, 0],
        [9, 2, 0] ++ List.replicate 17 0 ++ [99], 21⟩ ⟨[], []⟩)
    ∧ (99 : Nat) ≠ addr_ 20 ∧ addr_ 20 = 40 :=
  ⟨by rfl, by decide, by rfl⟩

end EVM

namespace EVM

/-- C6: one loop iteration on an opcode byte with no registered handler
halts cleanly — with no mutation beyond the fetch increment of `pc` —
only for bytes 11..31, the null entries of the 32-entry table; for any
byte of 32 or more the lookup `op[icode]` indexes past the table, which
is undefined behaviour in the C, modelled as the dispatch fault. -/
theorem unknown_opcode_dispatch (s : PU) (w : World) (b : Nat)
    (hb : s.pmem[s.pc]? = some b) :
    (11 ≤ b → b < 32 →
      resume_step s w = .ok (.halted { s with pc := (s.pc + 1) % U32 } w))
    ∧ (32 ≤ b → resume_step s w = .error .badDispatch) := by
  constructor
  · intro hlo hhi
    have hno : op_handler b = none := by
      interval_cases b <;> rfl
    unfold resume_step
    rw [hb]
    dsimp only
    rw [if_pos hhi, hno]
  · intro h32
    unfold resume_step
    rw [hb]
    dsimp only
    rw [if_neg (by omega)]

/-- C6 witness: byte 31 halts cleanly with only the pc increment, while
byte 32 faults on the out-of-range table lookup. -/
theorem unknown_opcode_dispatch_witness :
    resume_step ⟨0, 0, [0, 0, 0, 0, 0, 0, 0, 0], [31], 1⟩ ⟨[], []⟩
        = .ok (.halted ⟨1, 0, [0, 0, 0, 0, 0, 0, 0, 0], [31], 1⟩ ⟨[], []⟩)
      ∧ resume_step ⟨0, 0, [0, 0, 0, 0, 0, 0, 0, 0], [32], 1⟩ ⟨[], []⟩
        = .error .badDispatch :=
  ⟨(unknown_opcode_dispatch ⟨0, 0, [0, 0, 0, 0, 0, 0, 0, 0], [31], 1⟩ ⟨[], []⟩ 31
      (by rfl)).1 (by decide) (by decide),
    (unknown_opcode_dispatch ⟨0, 0, [0, 0, 0, 0, 0, 0, 0, 0], [32], 1⟩ ⟨[], []⟩ 32
      (by rfl)).2 (by decide)⟩

/-- C7 (amended): for a core whose `pc` is inside the 128-byte pool,
saving an image and loading it back into the zero-initialized start-up
core reproduces `pc` and the memory exactly, with all registers and both
flags zero whatever they were at save time; a core with `pc` at or past
the pool size saves an image that then fails to load. -/
theorem image_roundtrip (s : PU) (hm : s.pmemsize = 128)
    (hl : s.pmem.length = 128) (hpc : s.pc < 128) :
    load_image core_init (some (save_bytes s)) =
      .ok ⟨s.pc, 0, List.replicate 8 0, s.pmem, 128⟩ := by
  have hU32 : U32 = 4294967296 := rfl
  have hpcm : s.pc % 4294967296 = s.pc := by omega
  have hpc256 : s.pc % 256 = s.pc := by omega
  have hpcd : s.pc / 256 % 256 = 0 := by omega
  have hpcd2 : s.pc / 65536 % 256 = 0 := by omega
  have hpcd3 : s.pc / 16777216 % 256 = 0 := by omega
  have hs : save_bytes s =
      [23, 32, 0, 0, 144, 0, 0, 0, 128, 0, 0, 0, s.pc, 0, 0, 0] ++ s.pmem := by
    simp [save_bytes, u32le, MAGIC, hm, hU32, hpcm, hpc256, hpcd, hpcd2, hpcd3]
  rw [hs]
  have hlen : (([23, 32, 0, 0, 144, 0, 0, 0, 128, 0, 0, 0, s.pc, 0, 0, 0] : List Nat)
      ++ s.pmem).length = 144 := by simp [hl]
  have hr0 : ru32 ([23, 32, 0, 0, 144, 0, 0, 0, 128, 0, 0, 0, s.pc, 0, 0, 0] ++ s.pmem) 0
      = 8215 := by simp [ru32, List.getD]
  have hr8 : ru32 ([23, 32, 0, 0, 144, 0, 0, 0, 128, 0, 0, 0, s.pc, 0, 0, 0] ++ s.pmem) 8
      = 128 := by simp [ru32, List.getD]
  have hr12 : ru32 ([23, 32, 0, 0, 144, 0, 0, 0, 128, 0, 0, 0, s.pc, 0, 0, 0] ++ s.pmem) 12
      = s.pc := by simp [ru32, List.getD]
  have hdrop : (([23, 32, 0, 0, 144, 0, 0, 0, 128, 0, 0, 0, s.pc, 0, 0, 0] : List Nat)
      ++ s.pmem).drop 16 = s.pmem := List.drop_left' (by simp)
  have htake : s.pmem.take 128 = s.pmem := by
    rw [← hl]
    exact List.take_length s.pmem
  simp only [load_image, hlen, hr0, hr8, hr12, hdrop, htake, MAGIC, MEM_SIZE, core_init]
  norm_num
  rw [if_neg (by omega), if_neg (by omega)]

/-- C7 witness: a concrete core with pc = 5, dirty flags and registers,
and a pool of 9-bytes round-trips to the same pc and pool with zeroed
registers and flags. -/
theorem image_roundtrip_witness :
    load_image core_init
        (some (save_bytes ⟨5, 7, [1, 2, 3, 4, 5, 6, 7, 8], List.replicate 128 9, 128⟩)) =
      .ok ⟨5, 0, List.replicate 8 0, List.replicate 128 9, 128⟩ :=
  image_roundtrip ⟨5, 7, [1, 2, 3, 4, 5, 6, 7, 8], List.replicate 128 9, 128⟩
    (by rfl) (by rfl) (by decide)

/-- C7 counterexample: a core halted with pc = 128 (possible when the
last pool byte is an opcode) saves an image whose load then fails the
`pc` range check, so save-then-load does not reproduce this state. -/
theorem image_roundtrip_pc_counterexample :
    load_image core_init
        (some (save_bytes ⟨128, 0, List.replicate 8 0, List.replicate 128 0, 128⟩)) = .fail
      ∧ LoadResult.fail ≠
        LoadResult.ok ⟨128, 0, List.replicate 8 0, List.replicate 128 0, 128⟩ :=
  ⟨by rfl, by simp⟩

end EVM

namespace EVM

/-- C8 (amended): opcodes that route their destination through
`obj_write` — MOV, ADD, SUB, MPC, IN, both operands of AT, and the
reference operand of ATP — fault on a Literal (odd) destination byte;
but JIF, JMR and OUT resolve their addr operand by value through
`obj_read`, which accepts a Literal, so they silently proceed. -/
theorem literal_destination_checks (dst : Nat) (w : World)
    (hdst : dst % 2 = 1) (hd256 : dst < 256) :
    resume_step ⟨0, 0, [0, 0, 0, 0, 0, 0, 0, 0], [1, 3, dst], 3⟩ w = .error .assertFail
    ∧ resume_step ⟨0, 0, [0, 0, 0, 0, 0, 0, 0, 0], [2, 3, dst], 3⟩ w = .error .assertFail
    ∧ resume_step ⟨0, 0, [0, 0, 0, 0, 0, 0, 0, 0], [3, 3, dst], 3⟩ w = .error .assertFail
    ∧ resume_step ⟨0, 0, [0, 0, 0, 0, 0, 0, 0, 0], [6, dst], 2⟩ w = .error .assertFail
    ∧ resume_step ⟨0, 0, [0, 0, 0, 0, 0, 0, 0, 0], [7, 1, dst], 3⟩ w = .error .assertFail
    ∧ resume_step ⟨0, 0, [0, 0, 0, 0, 0, 0, 0, 0], [9, dst, 0], 3⟩ w = .error .assertFail
    ∧ resume_step ⟨0, 0, [0, 0, 0, 0, 0, 0, 0, 0], [9, 0, dst], 3⟩ w = .error .assertFail
    ∧ resume_step ⟨0, 0, [0, 0, 0, 0, 0, 0, 0, 0], [10, 3, dst], 3⟩ w = .error .assertFail
    ∧ resume_step ⟨0, 0, [0, 0, 0, 0, 0, 0, 0, 0], [4, 1, dst], 3⟩ w =
        .ok (.running ⟨dst / 2, 0, [0, 0, 0, 0, 0, 0, 0, 0], [4, 1, dst], 3⟩ w)
    ∧ resume_step ⟨0, 0, [0, 0, 0, 0, 0, 0, 0, 0], [5, dst], 2⟩ w =
        .ok (.running ⟨dst / 2, 0, [0, 0, 0, 0, 0, 0, 0, 0], [5, dst], 2⟩ w)
    ∧ resume_step ⟨0, 0, [0, 0, 0, 0, 0, 0, 0, 0], [8, 0, dst], 3⟩ w =
        .ok (.running ⟨3, 0, [0, 0, 0, 0, 0, 0, 0, 0], [8, 0, dst], 3⟩
          ⟨w.inp, w.out ++ [(0, dst / 2 % 256)]⟩) := by
  have hU32 : U32 = 4294967296 := rfl
  have p1 : (1 : Nat) % U32 = 1 := by rw [hU32]
  have p2 : (2 : Nat) % U32 = 2 := by rw [hU32]
  have p3 : (3 : Nat) % U32 = 3 := by rw [hU32]
  have hdsti : isnum dst = true := by simp [isnum, hdst]
  refine ⟨?_, ?_, ?_, ?_, ?_, ?_, ?_, ?_, ?_, ?_, ?_⟩ <;>
    simp [resume_step, op_handler, op_MOV, op_ADD, op_SUB, op_MPC, op_IN, op_AT, op_ATP,
      op_JIF, op_JMR, op_OUT, fetchOperand, obj_read, obj_write, getinp, putout,
      isnum, tonum, num_, isflag, hdst, hdsti, p1, p2, p3,
      Bind.bind, Except.bind, Functor.map, Except.map, Except.instMonad, Pure.pure, Except.pure]

/-- C8 witness: with the literal destination byte 11, MOV faults while
JMR silently jumps to 5. -/
theorem literal_destination_checks_witness :
    resume_step ⟨0, 0, [0, 0, 0, 0, 0, 0, 0, 0], [1, 3, 11], 3⟩ ⟨[], []⟩
        = .error .assertFail
      ∧ resume_step ⟨0, 0, [0, 0, 0, 0, 0, 0, 0, 0], [5, 11], 2⟩ ⟨[], []⟩ =
        .ok (.running ⟨5, 0, [0, 0, 0, 0, 0, 0, 0, 0], [5, 11], 2⟩ ⟨[], []⟩) :=
  ⟨(literal_destination_checks 11 ⟨[], []⟩ (by decide) (by decide)).1,
    (literal_destination_checks 11 ⟨[], []⟩ (by decide) (by decide)).2.2.2.2.2.2.2.2.2.1⟩

/-- C8 counterexample: JIF with the Literal addr operand 11 (with the
tested flag clear) raises no fault at all — it silently loads `pc` with
the literal value 5 — though the claim demands a fatal encoding fault. -/
theorem jif_literal_counterexample :
    resume_step ⟨0, 0, [0, 0, 0, 0, 0, 0, 0, 0], [4, 1, 11], 3⟩ ⟨[], []⟩
        = .ok (.running ⟨5, 0, [0, 0, 0, 0, 0, 0, 0, 0], [4, 1, 11], 3⟩ ⟨[], []⟩)
      ∧ isnum 11 = true
      ∧ Except.ok (Step.running ⟨5, 0, [0, 0, 0, 0, 0, 0, 0, 0], [4, 1, 11], 3⟩ ⟨[], []⟩)
        ≠ (Except.error Fault.assertFail : Except Fault Step) :=
  ⟨by rfl, by rfl, by simp⟩

end EVM

namespace EVM

/-- C9 (amended): with a load path given, a missing or unreadable file,
a short header, a magic mismatch, a pool-size mismatch with nonzero
memsize, and an out-of-range pc each make the load fail and the process
exit with status 1 before any instruction executes; a run only starts
from an image passing every check.  (A zero memsize instead trips the
`assert(0 < h.memsize)` and aborts — see the counterexample.) -/
theorem load_failure_conditions :
    run_with_image none = .loadFailedExit1
    ∧ (∀ bs : List Nat, bs.length < 16 → run_with_image (some bs) = .loadFailedExit1)
    ∧ (∀ bs : List Nat, 16 ≤ bs.length → ru32 bs 0 ≠ 8215 →
        run_with_image (some bs) = .loadFailedExit1)
    ∧ (∀ bs : List Nat, ru32 bs 0 = 8215 → ru32 bs 8 ≠ 128 → ru32 bs 8 ≠ 0 →
        run_with_image (some bs) = .loadFailedExit1)
    ∧ (∀ bs : List Nat, ru32 bs 0 = 8215 → ru32 bs 8 = 128 → 128 ≤ ru32 bs 12 →
        run_with_image (some bs) = .loadFailedExit1)
    ∧ (∀ bs : List Nat, ∀ p : PU, run_with_image (some bs) = .ran p →
        16 ≤ bs.length ∧ ru32 bs 0 = 8215 ∧ 0 < ru32 bs 8 ∧ ru32 bs 8 = 128 ∧
          ru32 bs 12 < 128 ∧ 128 ≤ (bs.drop 16).length ∧ p.pc = ru32 bs 12) := by
  refine ⟨rfl, ?_, ?_, ?_, ?_, ?_⟩
  · intro bs hlen
    unfold run_with_image load_image
    dsimp only
    rw [if_pos hlen]
  · intro bs hlen hmag
    unfold run_with_image load_image
    dsimp only
    rw [if_neg (by omega), if_pos (by simp [MAGIC, hmag])]
  · intro bs hmag hms hms0
    unfold run_with_image load_image
    dsimp only
    by_cases hlen : bs.length < 16
    · rw [if_pos hlen]
    · rw [if_neg hlen, if_neg (by simp [MAGIC, hmag]), if_neg (by simp [hms0]),
        if_pos (by simp [MEM_SIZE, hms])]
  · intro bs hmag hms hpc
    unfold run_with_image load_image
    dsimp only
    by_cases hlen : bs.length < 16
    · rw [if_pos hlen]
    · rw [if_neg hlen, if_neg (by simp [MAGIC, hmag]), if_neg (by simp [MEM_SIZE, hms]),
        if_neg (by simp [MEM_SIZE, hms]), if_pos (by rw [hms]; simpa [MEM_SIZE] using hpc)]
  · intro bs p h
    unfold run_with_image load_image at h
    dsimp only at h
    split_ifs at h with c1 c2 c3 c4 c5 c6 <;> try simp at h
    refine ⟨by omega, by simpa [MAGIC] using c2, by omega,
      by simpa [MEM_SIZE] using c4, ?_, ?_, ?_⟩
    · simp [MEM_SIZE] at c4
      omega
    · simp [MEM_SIZE] at c4
      omega
    · cases h
      rfl

/-- C9 witness: a three-byte file, an all-zero sixteen-byte header, a
header with pool size 17, and a header with pc 200 each make the run
exit with status 1. -/
theorem load_failure_conditions_witness :
    run_with_image (some [1, 2, 3]) = .loadFailedExit1
    ∧ run_with_image (some (List.replicate 16 0)) = .loadFailedExit1
    ∧ run_with_image (some [23, 32, 0, 0, 16, 0, 0, 0, 17, 0, 0, 0, 0, 0, 0, 0])
        = .loadFailedExit1
    ∧ run_with_image (some [23, 32, 0, 0, 144, 0, 0, 0, 128, 0, 0, 0, 200, 0, 0, 0])
        = .loadFailedExit1 :=
  ⟨load_failure_conditions.2.1 [1, 2, 3] (by decide),
    load_failure_conditions.2.2.1 (List.replicate 16 0) (by decide) (by decide),
    load_failure_conditions.2.2.2.1 [23, 32, 0, 0, 16, 0, 0, 0, 17, 0, 0, 0, 0, 0, 0, 0]
      (by decide) (by decide) (by decide),
    load_failure_conditions.2.2.2.2.1
      [23, 32, 0, 0, 144, 0, 0, 0, 128, 0, 0, 0, 200, 0, 0, 0]
      (by decide) (by decide) (by decide)⟩

/-- C9 counterexample: a well-formed header with memsize 0 — a
memory-size mismatch by the claim — does not exit with status 1: it
trips `assert(0 < h.memsize)` and the process aborts. -/
theorem load_memsize_zero_counterexample :
    run_with_image (some [23, 32, 0, 0, 16, 0, 0, 0, 0, 0, 0, 0, 0, 0, 0, 0]) = .aborted
      ∧ RunOutcome.aborted ≠ RunOutcome.loadFailedExit1 :=
  ⟨by rfl, by simp⟩

/-- C10: every loop iteration on an opcode byte other than ADD and SUB
that completes without a fault leaves the flags register exactly
unchanged; and on the representative ADD and SUB families, the CARRY and
ZERO bits after the step are functions of the operands alone — the same
for every prior flags value, never merged with it — while all higher
flag bits are preserved. -/
theorem flags_frame_and_overwrite :
    (∀ (s : PU) (w : World) (out : Step) (b : Nat),
      s.pmem[s.pc]? = some b → b ≠ 2 → b ≠ 3 →
      resume_step s w = .ok out → out.pu.fr = s.fr)
    ∧ (∀ old delta fr : Nat, ∀ w : World, old < 256 → delta < 256 → fr < U32 →
        ∃ s1, resume_step ⟨0, fr, [old, delta, 0, 0, 0, 0, 0, 0], [2, 2, 0], 3⟩ w
            = .ok (.running s1 w)
          ∧ isflag s1.fr FL_CARRY = false
          ∧ isflag s1.fr FL_ZERO = (old + delta == 0)
          ∧ (∀ i, 2 ≤ i → s1.fr.testBit i = fr.testBit i))
    ∧ (∀ old delta fr : Nat, ∀ w : World, old < 256 → delta < 256 → fr < U32 →
        ∃ s1, resume_step ⟨0, fr, [old, delta, 0, 0, 0, 0, 0, 0], [3, 2, 0], 3⟩ w
            = .ok (.running s1 w)
          ∧ isflag s1.fr FL_CARRY = decide (old < delta)
          ∧ isflag s1.fr FL_ZERO = (old == delta)
          ∧ (∀ i, 2 ≤ i → s1.fr.testBit i = fr.testBit i)) := by
  refine ⟨fun s w out b hb hb2 hb3 hstep => resume_step_fr hb hb2 hb3 hstep, ?_, ?_⟩
  · intro old delta fr w h1 h2 hfr
    exact ⟨_, add_family_eq old delta fr w h1 h2,
      flags_after_arith_carry fr false _ hfr,
      flags_after_arith_zero fr false _ hfr,
      fun i hi => flags_after_arith_high fr false _ i hfr hi⟩
  · intro old delta fr w h1 h2 hfr
    exact ⟨_, sub_family_eq old delta fr w h1 h2,
      flags_after_arith_carry fr _ _ hfr,
      flags_after_arith_zero fr _ _ hfr,
      fun i hi => flags_after_arith_high fr _ _ i hfr hi⟩

/-- C10 witness: a MOV step from flags value 3 keeps flags 3, while ADD
and SUB steps from flags value 3 rewrite both low flag bits from the
operands alone and keep the higher bits. -/
theorem flags_frame_and_overwrite_witness :
    (Step.pu (.running ⟨3, 3, [1, 0, 0, 0, 0, 0, 0, 0], [1, 3, 0], 3⟩ ⟨[], []⟩)).fr = 3
    ∧ (∃ s1, resume_step ⟨0, 3, [3, 5, 0, 0, 0, 0, 0, 0], [2, 2, 0], 3⟩ ⟨[], []⟩
          = .ok (.running s1 ⟨[], []⟩)
        ∧ isflag s1.fr FL_CARRY = false
        ∧ isflag s1.fr FL_ZERO = false
        ∧ (∀ i, 2 ≤ i → s1.fr.testBit i = (3 : Nat).testBit i))
    ∧ (∃ s1, resume_step ⟨0, 3, [3, 5, 0, 0, 0, 0, 0, 0], [3, 2, 0], 3⟩ ⟨[], []⟩
          = .ok (.running s1 ⟨[], []⟩)
        ∧ isflag s1.fr FL_CARRY = true
        ∧ isflag s1.fr FL_ZERO = false
        ∧ (∀ i, 2 ≤ i → s1.fr.testBit i = (3 : Nat).testBit i)) :=
  ⟨flags_frame_and_overwrite.1 ⟨0, 3, [1, 0, 0, 0, 0, 0, 0, 0], [1, 3, 0], 3⟩ ⟨[], []⟩
      (.running ⟨3, 3, [1, 0, 0, 0, 0, 0, 0, 0], [1, 3, 0], 3⟩ ⟨[], []⟩) 1 (by rfl)
      (by decide) (by decide) (by rfl),
    flags_frame_and_overwrite.2.1 3 5 3 ⟨[], []⟩ (by decide) (by decide) (by decide),
    flags_frame_and_overwrite.2.2 3 5 3 ⟨[], []⟩ (by decide) (by decide) (by decide)⟩

end EVM
